import Mathlib

/-!
Verification of the slide-to-video pipeline (tag parser, layout planner,
slide rasterizer text wrapping, video assembler) against its specification.

The Python source is shallowly embedded: pure functions become Lean
functions, raised exceptions become `Except String`, machine integers are
`Nat` (Python ints are unbounded and all quantities here are non-negative),
and the float average in `calculate_font_sizes` is modelled with `ℚ`
(exact for the integer inputs that occur; the float/rational distinction
cannot flip any of the threshold comparisons used).
-/

/-! ### Configuration (app/config.py, defaults) -/

def MAX_SLIDES : Nat := 20

def MAX_CONTENT_LINES_PER_SLIDE : Nat := 10

/-! ### String primitives

Python's `str.strip()` and `str.split('\n')`, modelled by structural
recursion over the character list so that concrete inputs evaluate inside
the kernel. -/

/-- Python `s.strip()`: drop leading and trailing whitespace. -/
def strTrim (s : String) : String :=
  ⟨((s.data.dropWhile Char.isWhitespace).reverse.dropWhile Char.isWhitespace).reverse⟩

/-- Accumulator loop for `splitLines`. -/
def splitLinesAux : List Char → List Char → List String
  | acc, [] => [⟨acc.reverse⟩]
  | acc, c :: cs =>
    if c = '\n' then (⟨acc.reverse⟩ : String) :: splitLinesAux [] cs
    else splitLinesAux (c :: acc) cs

/-- Python `raw_text.split('\n')`: split on every newline, keeping empty
pieces. -/
def splitLines (s : String) : List String := splitLinesAux [] s.data

/-! ### Data model (app/agents/input_agent.py) -/

/-- Single slide with title and content. -/
structure Slide where
  title : String
  content : List String
deriving Repr, DecidableEq

/-- Validated presentation structure. -/
structure PresentationInput where
  slides : List Slide
deriving Repr, DecidableEq

/-- Pydantic validators of `Slide` (title_not_empty, content_validation),
run at construction time; errors become `Except.error`. -/
def mkSlide (title : String) (content : List String) : Except String Slide :=
  if strTrim title = "" then .error "Slide title cannot be empty"
  else if title.length > 100 then .error "Slide title too long (max 100 characters)"
  else
    if content.length = 0 then .error "Slide must have at least one content line"
    else if content.length > MAX_CONTENT_LINES_PER_SLIDE then
      .error "Too many content lines (max 10)"
    else
      let cleaned := (content.map strTrim).filter (fun l => l ≠ "")
      if cleaned.length = 0 then .error "Slide must have at least one non-empty content line"
      else .ok ⟨strTrim title, cleaned⟩

/-- Pydantic validators of `PresentationInput` (min_items=1, check_slide_count). -/
def mkPresentationInput (slides : List Slide) : Except String PresentationInput :=
  if slides.length = 0 then .error "List should have at least 1 item"
  else if slides.length > MAX_SLIDES then .error "Too many slides (max 20)"
  else .ok ⟨slides⟩

/-! ### Tag parser (InputAgent.parse_slide_format)

The source is a line-by-line state machine over `raw_text.split('\n')`:
each line is stripped and compared for *exact* equality against the four
tag strings; a tag sharing its line with any other text is ordinary text.
Python truthiness of `current_title` (None and "" are both falsy) is
modelled by `titleFalsy`. -/

/-- Loop state of `parse_slide_format`: accumulated slides,
`current_slide_active`, `current_title`, `current_content`, `in_title`. -/
structure ParseState where
  slides : List Slide
  active : Bool
  title : Option String
  content : List String
  inTitle : Bool
deriving Repr, DecidableEq

/-- Python truthiness test `not current_title`: `None` and `""` are falsy. -/
def titleFalsy : Option String → Bool
  | none => true
  | some t => t = ""

/-- One iteration of the `for line in lines` loop of `parse_slide_format`.
Error messages follow the source, with the `Line {n}:` prefix elided. -/
def stepLine (st : ParseState) (rawLine : String) : Except String ParseState :=
  let line := strTrim rawLine
  if line = "" ∧ st.active = false then .ok st
  else if line = "[SLIDE_START]" then
    if st.active then .error "Nested [SLIDE_START] detected. Close previous slide first."
    else .ok { st with active := true, content := [], title := none }
  else if line = "[SLIDE_END]" then
    if st.active = false then .error "[SLIDE_END] without matching [SLIDE_START]"
    else if titleFalsy st.title then .error "Slide ended without a title"
    else if st.content = [] then .error "Slide has no content"
    else do
      let s ← mkSlide (st.title.getD "") st.content
      .ok { st with slides := st.slides ++ [s], active := false }
  else if line = "[TITLE_START]" then
    if st.active = false then .error "[TITLE_START] outside of slide"
    else if st.inTitle then .error "Nested [TITLE_START] detected"
    else .ok { st with inTitle := true }
  else if line = "[TITLE_END]" then
    if st.inTitle = false then .error "[TITLE_END] without matching [TITLE_START]"
    else .ok { st with inTitle := false }
  else if st.inTitle then
    if titleFalsy st.title = false then
      .error "Multiple title lines detected. Title should be on one line."
    else .ok { st with title := some line }
  else if st.active = true ∧ line ≠ "" then .ok { st with content := st.content ++ [line] }
  else .ok st

/-- The initial loop state. -/
def initState : ParseState := ⟨[], false, none, [], false⟩

/-- Run the parser loop over the list of lines. -/
def runLines : ParseState → List String → Except String ParseState
  | st, [] => .ok st
  | st, l :: ls =>
    match stepLine st l with
    | .error e => .error e
    | .ok st' => runLines st' ls

/-- The whole of `parse_slide_format` after splitting into lines:
loop, then the post-loop unclosed/empty checks, then `PresentationInput`
validation. -/
def parseLines (ls : List String) : Except String PresentationInput :=
  match runLines initState ls with
  | .error e => .error e
  | .ok st =>
    if st.active then .error "Unclosed slide detected. Missing [SLIDE_END]"
    else if st.inTitle then .error "Unclosed title detected. Missing [TITLE_END]"
    else if st.slides = [] then .error "No slides found in input"
    else mkPresentationInput st.slides

/-- `InputAgent.parse_slide_format`. -/
def parse_slide_format (raw : String) : Except String PresentationInput :=
  parseLines (splitLines raw)

/-! ### Whitespace normalization

Python `text.split()` (split on runs of whitespace, no empty pieces) and
`' '.join(...)`, used both by the rasterizer's word wrapping and to state
the spec's whitespace normalization. -/

/-- Accumulator loop for `splitWords`. -/
def splitWordsAux : List Char → List Char → List String
  | acc, [] => if acc = [] then [] else [⟨acc.reverse⟩]
  | acc, c :: cs =>
    if c.isWhitespace then
      if acc = [] then splitWordsAux [] cs
      else (⟨acc.reverse⟩ : String) :: splitWordsAux [] cs
    else splitWordsAux (c :: acc) cs

/-- Python `text.split()`: maximal runs of non-whitespace characters. -/
def splitWords (s : String) : List String := splitWordsAux [] s.data

/-- Python `' '.join(words)`. -/
def joinWords : List String → String
  | [] => ""
  | [w] => w
  | w :: x :: xs => w ++ " " ++ joinWords (x :: xs)

/-- Collapse every run of whitespace (including newlines) to a single
space and trim the ends: the spec's normalized token stream. -/
def normalizeWs (s : String) : String := joinWords (splitWords s)

/-! ### Layout planner (app/agents/planner_agent.py) -/

/-- Visual theme configuration. -/
structure ThemeConfig where
  name : String
  background_color : String
  text_color : String
  accent_color : String
  font_family : String
deriving Repr, DecidableEq

/-- `THEMES["corporate_blue"]`. -/
def corporateBlue : ThemeConfig :=
  ⟨"corporate_blue", "#1e3a8a", "#ffffff", "#60a5fa", "Arial"⟩

/-- `THEMES["modern_dark"]`. -/
def modernDark : ThemeConfig :=
  ⟨"modern_dark", "#1f2937", "#f9fafb", "#10b981", "Helvetica"⟩

/-- `THEMES["minimal_light"]`. -/
def minimalLight : ThemeConfig :=
  ⟨"minimal_light", "#f3f4f6", "#111827", "#3b82f6", "Arial"⟩

/-- `THEMES["vibrant_purple"]`. -/
def vibrantPurple : ThemeConfig :=
  ⟨"vibrant_purple", "#7c3aed", "#ffffff", "#fbbf24", "Arial"⟩

/-- The static four-entry theme table `PlannerAgent.THEMES`. -/
def THEMES : List (String × ThemeConfig) :=
  [("corporate_blue", corporateBlue), ("modern_dark", modernDark),
   ("minimal_light", minimalLight), ("vibrant_purple", vibrantPurple)]

/-- `PlannerAgent.select_theme`. Python's `if theme_name and theme_name in
THEMES` treats `None` and `""` as falsy. -/
def select_theme (theme_name : Option String) : ThemeConfig :=
  match theme_name with
  | some n =>
    if n ≠ "" then
      match THEMES.lookup n with
      | some t => t
      | none => corporateBlue
    else corporateBlue
  | none => corporateBlue

/-- `PlannerAgent.calculate_slide_duration`: base 3s, 1s per bullet,
capped at 15. -/
def calculate_slide_duration (content_lines : List String) : Nat :=
  min (3 + content_lines.length * 1) 15

/-- `PlannerAgent.calculate_font_sizes`, returning (title font, content
font). The float average becomes an exact rational. -/
def calculate_font_sizes (title : String) (content_lines : List String) : Nat × Nat :=
  let title_font : Nat := if title.length > 50 then 36
    else if title.length > 30 then 42 else 48
  let avg : ℚ := if content_lines.length = 0 then 0
    else (((content_lines.map String.length).sum : ℚ) / (content_lines.length : ℚ))
  let base : Nat := if avg > 80 then 24 else if avg > 50 then 28 else 32
  let content_font : Nat := if content_lines.length > 6 then max 20 (base - 4) else base
  (title_font, content_font)

/-- Layout configuration for a single slide. -/
structure SlideLayout where
  slide_number : Nat
  title : String
  content : List String
  layout : String
  duration_seconds : Nat
  font_size_title : Nat
  font_size_content : Nat
deriving Repr, DecidableEq

/-- Complete presentation plan with theme and slide layouts. -/
structure PresentationPlan where
  theme : ThemeConfig
  slides : List SlideLayout
  total_duration : Nat
deriving Repr, DecidableEq

/-- Body of the `for idx, slide in enumerate(...)` loop of `create_plan`:
the `SlideLayout` built for one slide at a given 1-based number. -/
def layoutForSlide (slide_number : Nat) (s : Slide) : SlideLayout :=
  ⟨slide_number, s.title, s.content, "title_and_bullets",
   calculate_slide_duration s.content,
   (calculate_font_sizes s.title s.content).1,
   (calculate_font_sizes s.title s.content).2⟩

/-- `PlannerAgent.create_plan`: one `SlideLayout` per input slide,
numbered from 1 in input order; `total_duration` accumulates the
per-slide durations. -/
def create_plan (validated_input : PresentationInput) (theme_name : Option String) :
    PresentationPlan :=
  ⟨select_theme theme_name,
   validated_input.slides.enum.map fun p => layoutForSlide (p.1 + 1) p.2,
   (validated_input.slides.map fun s => calculate_slide_duration s.content).sum⟩

/-! ### Video assembler (app/services/video_generator.py)

`OpenCVGenerator.create_video` interacts with the filesystem and the
OpenCV writer; those collaborators are abstracted into `FsEnv` (which
image paths exist, whether the writer opens). The `Except.ok` value is
the ordered sequence of frames written to the output file, each frame
identified by the image path it repeats. -/

/-- Collaborator environment for the video assembler. -/
structure FsEnv where
  fileExists : String → Bool
  writerOpens : Bool

/-- `OpenCVGenerator.create_video`: empty-input check, then existence
check for every slide image (before the writer is opened and before any
frame is written), then writer initialization, then `int(duration * fps)`
identical frames per slide in input order. -/
def create_video (env : FsEnv) (slide_data : List (String × Nat))
    (output_path : String) (fps : Nat) : Except String (List String) :=
  if slide_data.length = 0 then .error "No slides provided for video generation"
  else
    match slide_data.find? (fun p => !env.fileExists p.1) with
    | some p => .error ("Slide not found: " ++ p.1)
    | none =>
      if env.writerOpens = false then .error ("Failed to initialize video writer at " ++ output_path)
      else .ok ((slide_data.map fun p => List.replicate (p.2 * fps) p.1).flatten)

/-! ### Rasterizer word wrapping (SlideRenderer._wrap_text)

The PIL font is abstracted into a width function `String → Nat`
(`font.getbbox(line)` width). The greedy loop packs words while the
measured candidate line stays within `max_width`. -/

/-- The `for word in words` loop of `_wrap_text`: `current` is
`current_line`, `lines` the emitted lines so far. -/
def wrapLoop (width : String → Nat) (maxW : Nat) :
    List String → List String → List String → List String
  | [], current, lines =>
    if current = [] then lines else lines ++ [joinWords current]
  | w :: ws, current, lines =>
    if width (joinWords (current ++ [w])) ≤ maxW then
      wrapLoop width maxW ws (current ++ [w]) lines
    else
      wrapLoop width maxW ws [w]
        (if current = [] then lines else lines ++ [joinWords current])

/-- `SlideRenderer._wrap_text`: greedy word wrap; a whitespace-only text
produces no words and falls back to `[text]`. -/
def wrap_text (width : String → Nat) (text : String) (maxW : Nat) : List String :=
  let lines := wrapLoop width maxW (splitWords text) [] []
  if lines = [] then [text] else lines

/-- Mean bullet length of a slide's content, as the spec words it:
total characters divided by bullet count (exact rational). -/
def meanLen (content : List String) : ℚ :=
  ((content.map String.length).sum : ℚ) / (content.length : ℚ)

/-- The grouping of words produced by the greedy loop of `_wrap_text`:
`wrapLoop` emits exactly `joinWords` of each group, in order. Used to
reason about which words end up on which line. -/
def groupsLoop (width : String → Nat) (maxW : Nat) :
    List String → List String → List (List String)
  | [], current => if current = [] then [] else [current]
  | w :: ws, current =>
    if width (joinWords (current ++ [w])) ≤ maxW then
      groupsLoop width maxW ws (current ++ [w])
    else (if current = [] then [] else [current]) ++ groupsLoop width maxW ws [w]

/-! ### Claims about the tag parser -/

/-- C1: the spec's end-to-end scenario for the single-line input
`[SLIDE_START][TITLE_START]Intro[TITLE_END][BULLET_START]A[BULLET_END][BULLET_START]B[BULLET_END][SLIDE_END]`
claims parse-then-plan succeeds with one slide titled "Intro", 2 content
lines, duration 5, fonts 48/32, default theme. The line-based parser
instead rejects the input outright ("No slides found in input"), because
no line consists of a lone tag; the planner side of the scenario (5s,
48/32, corporate_blue) would hold for the intended slide. -/
theorem c1_single_line_scenario :
    parse_slide_format "[SLIDE_START][TITLE_START]Intro[TITLE_END][BULLET_START]A[BULLET_END][BULLET_START]B[BULLET_END][SLIDE_END]"
        = .error "No slides found in input" ∧
    create_plan ⟨[⟨"Intro", ["A", "B"]⟩]⟩ none =
      ⟨corporateBlue, [⟨1, "Intro", ["A", "B"], "title_and_bullets", 5, 48, 32⟩], 5⟩ := by
  refine ⟨rfl, ?_⟩
  simp [create_plan, layoutForSlide, calculate_font_sizes, calculate_slide_duration,
    select_theme]
  norm_num [show ("Intro".length = 5) from rfl, show ("A".length = 1) from rfl,
    show ("B".length = 1) from rfl]

/-- C2: the spec claims parsing is whitespace-insensitive (any re-layout
preserving the normalized token stream parses identically). The two texts
below have equal normalized streams and differ only in one newline
versus one space, yet the first parses and the second fails: the
line-based parser is sensitive to where line breaks fall. -/
theorem c2_whitespace_sensitivity :
    normalizeWs "[SLIDE_START]\n[TITLE_START]\nIntro\n[TITLE_END]\nA\n[SLIDE_END]"
        = normalizeWs "[SLIDE_START] [TITLE_START]\nIntro\n[TITLE_END]\nA\n[SLIDE_END]" ∧
    parse_slide_format "[SLIDE_START]\n[TITLE_START]\nIntro\n[TITLE_END]\nA\n[SLIDE_END]"
        = .ok ⟨[⟨"Intro", ["A"]⟩]⟩ ∧
    parse_slide_format "[SLIDE_START] [TITLE_START]\nIntro\n[TITLE_END]\nA\n[SLIDE_END]"
        = .error "[TITLE_END] without matching [TITLE_START]" :=
  ⟨rfl, rfl, rfl⟩

/-- C3 counterexample: the claim says an unmatched tag never by itself
causes a parse failure. Prepending a lone unmatched `[SLIDE_END]` line to
an otherwise valid input makes parsing fail, while the same input without
that line parses. -/
theorem c3_unmatched_tag_counterexample :
    parseLines ["[SLIDE_END]", "[SLIDE_START]", "[TITLE_START]", "T",
        "[TITLE_END]", "A", "[SLIDE_END]"]
        = .error "[SLIDE_END] without matching [SLIDE_START]" ∧
    parseLines ["[SLIDE_START]", "[TITLE_START]", "T", "[TITLE_END]", "A", "[SLIDE_END]"]
        = .ok ⟨[⟨"T", ["A"]⟩]⟩ :=
  ⟨rfl, rfl⟩

/-- C3 amended: an unmatched or out-of-place tag standing alone on a line
is a hard parse error, not ignored text: a leading `[SLIDE_END]` fails
with "[SLIDE_END] without matching [SLIDE_START]", a leading
`[TITLE_END]` with "[TITLE_END] without matching [TITLE_START]", and a
second `[SLIDE_START]` before the first is closed with the nested-slide
error — whatever follows. (Tags not alone on their line are still
ordinary text.) -/
theorem c3_unmatched_tag_errors :
    (∀ rest : List String, parseLines ("[SLIDE_END]" :: rest)
        = .error "[SLIDE_END] without matching [SLIDE_START]") ∧
    (∀ rest : List String, parseLines ("[TITLE_END]" :: rest)
        = .error "[TITLE_END] without matching [TITLE_START]") ∧
    (∀ rest : List String, parseLines ("[SLIDE_START]" :: "[SLIDE_START]" :: rest)
        = .error "Nested [SLIDE_START] detected. Close previous slide first.") := by
  refine ⟨fun rest => ?_, fun rest => ?_, fun rest => ?_⟩
  · have h : stepLine initState "[SLIDE_END]"
        = .error "[SLIDE_END] without matching [SLIDE_START]" := rfl
    simp [parseLines, runLines, h]
  · have h : stepLine initState "[TITLE_END]"
        = .error "[TITLE_END] without matching [TITLE_START]" := rfl
    simp [parseLines, runLines, h]
  · have h1 : stepLine initState "[SLIDE_START]" = .ok ⟨[], true, none, [], false⟩ := rfl
    have h2 : stepLine ⟨[], true, none, [], false⟩ "[SLIDE_START]"
        = .error "Nested [SLIDE_START] detected. Close previous slide first." := rfl
    simp [parseLines, runLines, h1, h2]

/-! ### Claims about the layout planner -/

/-- C5: the planned duration is `clamp(3 + bullet_count, 3, 15)` seconds
(the floor at 3 holds automatically), it always lies in `[3, 15]`, and it
is monotone non-decreasing in the bullet count. -/
theorem c5_duration_clamp :
    ∀ c1 c2 : List String, c1.length ≤ c2.length →
      calculate_slide_duration c1 = max 3 (min (3 + c1.length) 15) ∧
      3 ≤ calculate_slide_duration c1 ∧
      calculate_slide_duration c1 ≤ 15 ∧
      calculate_slide_duration c1 ≤ calculate_slide_duration c2 := by
  intro c1 c2 h
  simp only [calculate_slide_duration]
  omega

/-- Witness for C5 at bullet counts 1 and 2. -/
theorem c5_duration_clamp_witness :
    calculate_slide_duration ["A"] = max 3 (min (3 + (["A"] : List String).length) 15) ∧
    3 ≤ calculate_slide_duration ["A"] ∧
    calculate_slide_duration ["A"] ≤ 15 ∧
    calculate_slide_duration ["A"] ≤ calculate_slide_duration ["A", "B"] :=
  c5_duration_clamp ["A"] ["A", "B"] (by decide)

/-- C7: title font is 36 for titles longer than 50 characters, 42 for
lengths in (30, 50], else 48; content font is 24/28/32 by mean bullet
length thresholds 80 and 50; with more than 6 bullets the content font is
reduced by 4 with floor 20; the title font never depends on the bullet
list. -/
theorem c7_font_sizing :
    ∀ (title : String) (content : List String), content ≠ [] →
      (50 < title.length → (calculate_font_sizes title content).1 = 36) ∧
      (30 < title.length ∧ title.length ≤ 50 → (calculate_font_sizes title content).1 = 42) ∧
      (title.length ≤ 30 → (calculate_font_sizes title content).1 = 48) ∧
      (content.length ≤ 6 →
        (80 < meanLen content → (calculate_font_sizes title content).2 = 24) ∧
        (50 < meanLen content ∧ meanLen content ≤ 80 →
          (calculate_font_sizes title content).2 = 28) ∧
        (meanLen content ≤ 50 → (calculate_font_sizes title content).2 = 32)) ∧
      (6 < content.length →
        (calculate_font_sizes title content).2 =
          max 20 ((if 80 < meanLen content then 24
            else if 50 < meanLen content then 28 else 32) - 4)) ∧
      (∀ content' : List String,
        (calculate_font_sizes title content').1 = (calculate_font_sizes title content).1) := by
  intro title content h
  have hlen : ¬ content.length = 0 := by simpa using h
  refine ⟨?_, ?_, ?_, ?_, ?_, ?_⟩
  · intro ht; simp only [calculate_font_sizes]; split_ifs <;> first | rfl | omega
  · intro ht; simp only [calculate_font_sizes]; split_ifs <;> first | rfl | omega
  · intro ht; simp only [calculate_font_sizes]; split_ifs <;> first | rfl | omega
  · intro hb
    simp only [calculate_font_sizes, meanLen, if_neg hlen]
    refine ⟨?_, ?_, ?_⟩ <;> intro hm <;> split_ifs <;>
      first | rfl | omega | (exfalso; rcases hm with ⟨hm1, hm2⟩ <;> linarith) | linarith
  · intro hb
    simp only [calculate_font_sizes, meanLen, if_neg hlen]
    split_ifs <;> first | rfl | omega
  · intro content'
    simp only [calculate_font_sizes]

/-- Witness for C7 at title "Hello" and a single short bullet. -/
theorem c7_font_sizing_witness :
    (50 < ("Hello" : String).length → (calculate_font_sizes "Hello" ["A"]).1 = 36) ∧
    (30 < ("Hello" : String).length ∧ ("Hello" : String).length ≤ 50 →
      (calculate_font_sizes "Hello" ["A"]).1 = 42) ∧
    (("Hello" : String).length ≤ 30 → (calculate_font_sizes "Hello" ["A"]).1 = 48) ∧
    ((["A"] : List String).length ≤ 6 →
      (80 < meanLen ["A"] → (calculate_font_sizes "Hello" ["A"]).2 = 24) ∧
      (50 < meanLen ["A"] ∧ meanLen ["A"] ≤ 80 →
        (calculate_font_sizes "Hello" ["A"]).2 = 28) ∧
      (meanLen ["A"] ≤ 50 → (calculate_font_sizes "Hello" ["A"]).2 = 32)) ∧
    (6 < (["A"] : List String).length →
      (calculate_font_sizes "Hello" ["A"]).2 =
        max 20 ((if 80 < meanLen ["A"] then 24
          else if 50 < meanLen ["A"] then 28 else 32) - 4)) ∧
    (∀ content' : List String,
      (calculate_font_sizes "Hello" content').1 = (calculate_font_sizes "Hello" ["A"]).1) :=
  c7_font_sizing "Hello" ["A"] (by decide)

/-- C8: theme resolution is total and never fails: a name present in the
static four-entry table resolves to its `ThemeConfig`; any other name,
and the absent name, fall back to the default `corporate_blue` theme. -/
theorem c8_theme_fallback :
    (∀ n t, THEMES.lookup n = some t → select_theme (some n) = t) ∧
    (∀ n, THEMES.lookup n = none → select_theme (some n) = corporateBlue) ∧
    select_theme none = corporateBlue := by
  refine ⟨?_, ?_, rfl⟩
  · intro n t h
    by_cases h1 : n = "corporate_blue"
    · subst h1
      rw [show THEMES.lookup "corporate_blue" = some corporateBlue from rfl] at h
      have h' := Option.some.inj h
      subst h'
      rfl
    · by_cases h2 : n = "modern_dark"
      · subst h2
        rw [show THEMES.lookup "modern_dark" = some modernDark from rfl] at h
        have h' := Option.some.inj h
        subst h'
        rfl
      · by_cases h3 : n = "minimal_light"
        · subst h3
          rw [show THEMES.lookup "minimal_light" = some minimalLight from rfl] at h
          have h' := Option.some.inj h
          subst h'
          rfl
        · by_cases h4 : n = "vibrant_purple"
          · subst h4
            rw [show THEMES.lookup "vibrant_purple" = some vibrantPurple from rfl] at h
            have h' := Option.some.inj h
            subst h'
            rfl
          · have e1 : (n == "corporate_blue") = false := by simp [h1]
            have e2 : (n == "modern_dark") = false := by simp [h2]
            have e3 : (n == "minimal_light") = false := by simp [h3]
            have e4 : (n == "vibrant_purple") = false := by simp [h4]
            simp only [THEMES, List.lookup, e1, e2, e3, e4] at h
            exact Option.noConfusion h
  · intro n h
    by_cases hn : n = ""
    · simp [select_theme, hn]
    · simp [select_theme, hn, h]

/-- Witness for C8: a known theme resolves to itself, an unknown name
falls back to the default. -/
theorem c8_theme_fallback_witness :
    select_theme (some "modern_dark") = modernDark ∧
    select_theme (some "solarized") = corporateBlue :=
  ⟨c8_theme_fallback.1 "modern_dark" modernDark rfl,
   c8_theme_fallback.2.1 "solarized" rfl⟩

/-- The planner loop over `enumerate(slides, n + 1)`: projections of the
produced layouts, for any starting index. -/
theorem enumFrom_layout_props :
    ∀ (l : List Slide) (n : Nat),
      (((List.enumFrom n l).map fun p => layoutForSlide (p.1 + 1) p.2).map
          SlideLayout.slide_number) = List.range' (n + 1) l.length ∧
      (((List.enumFrom n l).map fun p => layoutForSlide (p.1 + 1) p.2).map
          SlideLayout.title) = l.map Slide.title ∧
      (((List.enumFrom n l).map fun p => layoutForSlide (p.1 + 1) p.2).map
          SlideLayout.content) = l.map Slide.content ∧
      (((List.enumFrom n l).map fun p => layoutForSlide (p.1 + 1) p.2).map
          SlideLayout.duration_seconds) = l.map fun s => calculate_slide_duration s.content := by
  intro l
  induction l with
  | nil => intro n; simp [List.enumFrom]
  | cons s t ih =>
    intro n
    obtain ⟨ih1, ih2, ih3, ih4⟩ := ih (n + 1)
    simp only [List.enumFrom, List.map_cons, List.length_cons]
    rw [ih1, ih2, ih3, ih4]
    exact ⟨rfl, rfl, rfl, rfl⟩

/-- C6: for every validated input with at most `MAX_SLIDES` slides, the
plan has exactly one layout per input slide, slide numbers are exactly
`1..N` contiguous in input order, titles and content are copied
unchanged, and `total_duration` is the exact sum of the per-slide
`duration_seconds`. -/
theorem c6_plan_shape :
    ∀ (vi : PresentationInput) (tn : Option String),
      vi.slides.length ≤ MAX_SLIDES →
      (create_plan vi tn).slides.length = vi.slides.length ∧
      (create_plan vi tn).slides.map SlideLayout.slide_number
          = List.range' 1 vi.slides.length ∧
      (create_plan vi tn).slides.map SlideLayout.title = vi.slides.map Slide.title ∧
      (create_plan vi tn).slides.map SlideLayout.content = vi.slides.map Slide.content ∧
      (create_plan vi tn).total_duration
          = ((create_plan vi tn).slides.map SlideLayout.duration_seconds).sum := by
  intro vi tn _
  obtain ⟨h1, h2, h3, h4⟩ := enumFrom_layout_props vi.slides 0
  refine ⟨?_, ?_, ?_, ?_, ?_⟩
  · simp [create_plan]
  · simpa [create_plan, List.enum] using h1
  · simpa [create_plan, List.enum] using h2
  · simpa [create_plan, List.enum] using h3
  · simp [create_plan, List.enum, h4]

/-- Witness for C6 at a one-slide input. -/
theorem c6_plan_shape_witness :
    (create_plan ⟨[⟨"T", ["A"]⟩]⟩ none).slides.length
        = (PresentationInput.mk [⟨"T", ["A"]⟩]).slides.length ∧
    (create_plan ⟨[⟨"T", ["A"]⟩]⟩ none).slides.map SlideLayout.slide_number
        = List.range' 1 (PresentationInput.mk [⟨"T", ["A"]⟩]).slides.length ∧
    (create_plan ⟨[⟨"T", ["A"]⟩]⟩ none).slides.map SlideLayout.title
        = (PresentationInput.mk [⟨"T", ["A"]⟩]).slides.map Slide.title ∧
    (create_plan ⟨[⟨"T", ["A"]⟩]⟩ none).slides.map SlideLayout.content
        = (PresentationInput.mk [⟨"T", ["A"]⟩]).slides.map Slide.content ∧
    (create_plan ⟨[⟨"T", ["A"]⟩]⟩ none).total_duration
        = ((create_plan ⟨[⟨"T", ["A"]⟩]⟩ none).slides.map SlideLayout.duration_seconds).sum :=
  c6_plan_shape ⟨[⟨"T", ["A"]⟩]⟩ none (by decide)

/-! ### Claims about the video assembler -/

/-- C4: when every slide image exists and the writer opens, `create_video`
emits exactly `duration * fps` identical frames per slide in input order,
so the total frame count is `fps * Σ duration` and the playable duration
`frames / fps` equals `Σ duration` exactly (durations are integers in the
source signature, so `int(duration * fps)` is exact). -/
theorem c4_frame_exactness :
    ∀ (env : FsEnv) (sd : List (String × Nat)) (out : String) (fps : Nat),
      sd ≠ [] → (∀ p ∈ sd, env.fileExists p.1 = true) → env.writerOpens = true →
      create_video env sd out fps
          = .ok ((sd.map fun p => List.replicate (p.2 * fps) p.1).flatten) ∧
      ((sd.map fun p => List.replicate (p.2 * fps) p.1).flatten).length
          = fps * (sd.map Prod.snd).sum ∧
      (0 < fps →
        ((sd.map fun p => List.replicate (p.2 * fps) p.1).flatten).length / fps
          = (sd.map Prod.snd).sum) := by
  intro env sd out fps hne hex hw
  have hlen : ((sd.map fun p => List.replicate (p.2 * fps) p.1).flatten).length
      = fps * (sd.map Prod.snd).sum := by
    rw [List.length_flatten, List.map_map]
    have : ((fun l => List.length l) ∘ fun p : String × Nat => List.replicate (p.2 * fps) p.1)
        = fun p : String × Nat => p.2 * fps := by
      funext p
      simp
    rw [show (List.length ∘ fun p : String × Nat => List.replicate (p.2 * fps) p.1)
        = fun p : String × Nat => p.2 * fps from by funext p; simp]
    rw [List.sum_map_mul_right]
    ring
  refine ⟨?_, hlen, ?_⟩
  · have h0 : ¬ sd.length = 0 := by simpa [List.length_eq_zero] using hne
    have hfind : sd.find? (fun p => !env.fileExists p.1) = none := by
      rw [List.find?_eq_none]
      intro p hp
      simp [hex p hp]
    simp [create_video, h0, hfind, hw]
  · intro hfps
    rw [hlen, Nat.mul_div_cancel_left _ hfps]

/-- Witness for C4: two slides of 3s and 4s at 30 fps in an environment
where every file exists and the writer opens. -/
theorem c4_frame_exactness_witness :
    create_video ⟨fun _ => true, true⟩ [("a.png", 3), ("b.png", 4)] "out.mp4" 30
        = .ok ((([("a.png", 3), ("b.png", 4)] : List (String × Nat)).map
            fun p => List.replicate (p.2 * 30) p.1).flatten) ∧
    ((([("a.png", 3), ("b.png", 4)] : List (String × Nat)).map
        fun p => List.replicate (p.2 * 30) p.1).flatten).length
        = 30 * (([("a.png", 3), ("b.png", 4)] : List (String × Nat)).map Prod.snd).sum ∧
    (0 < 30 →
      ((([("a.png", 3), ("b.png", 4)] : List (String × Nat)).map
          fun p => List.replicate (p.2 * 30) p.1).flatten).length / 30
          = (([("a.png", 3), ("b.png", 4)] : List (String × Nat)).map Prod.snd).sum) :=
  c4_frame_exactness ⟨fun _ => true, true⟩ [("a.png", 3), ("b.png", 4)] "out.mp4" 30
    (by decide) (fun p _ => rfl) rfl

/-- C9: `create_video` fails exactly when the slide list is empty, some
referenced image does not exist, or the writer cannot be opened; in every
such case the result is an error, so no frame sequence is reported as a
finished artifact (existence of all images is checked before the writer
is opened and before any frame is emitted, per the definition's order). -/
theorem c9_assembly_error_iff :
    ∀ (env : FsEnv) (sd : List (String × Nat)) (out : String) (fps : Nat),
      (∃ e, create_video env sd out fps = .error e) ↔
        (sd = [] ∨ (∃ p ∈ sd, env.fileExists p.1 = false) ∨ env.writerOpens = false) := by
  intro env sd out fps
  constructor
  · rintro ⟨e, he⟩
    by_cases h0 : sd.length = 0
    · left
      exact List.length_eq_zero.mp h0
    · right
      rcases hfind : sd.find? (fun p => !env.fileExists p.1) with _ | p
      · right
        by_cases hw : env.writerOpens
        · exfalso
          simp [create_video, h0, hfind, hw] at he
        · simpa using hw
      · left
        refine ⟨p, List.mem_of_find?_eq_some hfind, ?_⟩
        have := List.find?_some hfind
        simpa using this
  · intro h
    rcases h with h | ⟨p, hp, hex⟩ | hw
    · subst h
      exact ⟨"No slides provided for video generation", rfl⟩
    · by_cases h0 : sd.length = 0
      · exact ⟨"No slides provided for video generation", by simp [create_video, h0]⟩
      · rcases hfind : sd.find? (fun p => !env.fileExists p.1) with _ | q
        · exfalso
          have := List.find?_eq_none.mp hfind p hp
          simp [hex] at this
        · exact ⟨"Slide not found: " ++ q.1, by simp [create_video, h0, hfind]⟩
    · by_cases h0 : sd.length = 0
      · exact ⟨"No slides provided for video generation", by simp [create_video, h0]⟩
      · rcases hfind : sd.find? (fun p => !env.fileExists p.1) with _ | q
        · exact ⟨"Failed to initialize video writer at " ++ out,
            by simp [create_video, h0, hfind, hw]⟩
        · exact ⟨"Slide not found: " ++ q.1, by simp [create_video, h0, hfind]⟩

/-! ### Claims about the rasterizer word wrap -/

/-- The wrap loop emits exactly the space-joins of its word groups,
appended to the lines already emitted. -/
theorem wrapLoop_eq_groups (width : String → Nat) (maxW : Nat) :
    ∀ (ws current lines : List String),
      wrapLoop width maxW ws current lines
        = lines ++ (groupsLoop width maxW ws current).map joinWords := by
  intro ws
  induction ws with
  | nil =>
    intro current lines
    by_cases hc : current = [] <;> simp [wrapLoop, groupsLoop, hc]
  | cons w ws ih =>
    intro current lines
    simp only [wrapLoop, groupsLoop]
    by_cases hfit : width (joinWords (current ++ [w])) ≤ maxW
    · simp [hfit, ih]
    · by_cases hc : current = [] <;> simp [hfit, hc, ih]

/-- The word groups of the wrap loop partition `current ++ ws` in order:
no word is dropped, duplicated, reordered or split. -/
theorem groupsLoop_flatten (width : String → Nat) (maxW : Nat) :
    ∀ (ws current : List String),
      (groupsLoop width maxW ws current).flatten = current ++ ws := by
  intro ws
  induction ws with
  | nil =>
    intro current
    by_cases hc : current = [] <;> simp [groupsLoop, hc]
  | cons w ws ih =>
    intro current
    simp only [groupsLoop]
    by_cases hfit : width (joinWords (current ++ [w])) ≤ maxW
    · simp [hfit, ih]
    · by_cases hc : current = [] <;> simp [hfit, hc, ih]

/-- Every word group emitted by the wrap loop is non-empty. -/
theorem groupsLoop_ne_nil (width : String → Nat) (maxW : Nat) :
    ∀ (ws current g : List String), g ∈ groupsLoop width maxW ws current → g ≠ [] := by
  intro ws
  induction ws with
  | nil =>
    intro current g hg
    by_cases hc : current = []
    · simp [groupsLoop, hc] at hg
    · simp [groupsLoop, hc] at hg
      subst hg
      exact hc
  | cons w ws ih =>
    intro current g hg
    simp only [groupsLoop] at hg
    by_cases hfit : width (joinWords (current ++ [w])) ≤ maxW
    · rw [if_pos hfit] at hg
      exact ih _ g hg
    · rw [if_neg hfit] at hg
      rcases List.mem_append.mp hg with h | h
      · by_cases hc : current = []
        · simp [hc] at h
        · simp [hc] at h
          subst h
          exact hc
      · exact ih _ g h

/-- Joining a concatenation of two non-empty word lists inserts exactly
one separating space. -/
theorem joinWords_append :
    ∀ (a b : List String), a ≠ [] → b ≠ [] →
      joinWords (a ++ b) = joinWords a ++ " " ++ joinWords b := by
  intro a
  induction a with
  | nil => intro b h; exact absurd rfl h
  | cons w a ih =>
    intro b _ hb
    cases a with
    | nil =>
      cases b with
      | nil => exact absurd rfl hb
      | cons x xs => simp [joinWords]
    | cons u a' =>
      have h' := ih (b := b) (by simp) hb
      have hcons : ((u :: a') ++ b) = u :: (a' ++ b) := rfl
      calc joinWords ((w :: u :: a') ++ b)
          = w ++ " " ++ joinWords ((u :: a') ++ b) := rfl
        _ = w ++ " " ++ (joinWords (u :: a') ++ " " ++ joinWords b) := by rw [h']
        _ = (w ++ " " ++ joinWords (u :: a')) ++ " " ++ joinWords b := by
            simp [String.append_assoc]
        _ = joinWords (w :: u :: a') ++ " " ++ joinWords b := rfl

/-- Space-joining the per-group joins equals space-joining all words,
provided every group is non-empty. -/
theorem joinWords_flatten :
    ∀ (G : List (List String)), (∀ g ∈ G, g ≠ []) →
      joinWords (G.map joinWords) = joinWords G.flatten := by
  intro G
  induction G with
  | nil => intro _; rfl
  | cons g G ih =>
    intro h
    cases G with
    | nil => simp [joinWords]
    | cons g' G' =>
      have hg : g ≠ [] := h g (by simp)
      have hg' : g' ≠ [] := h g' (by simp)
      have hrest : (g' :: G').flatten ≠ [] := by
        simp only [List.flatten_cons]
        intro hnil
        exact hg' (List.append_eq_nil.mp hnil).1
      have hLHS : joinWords ((g :: g' :: G').map joinWords)
          = joinWords g ++ " " ++ joinWords ((g' :: G').map joinWords) := rfl
      rw [hLHS, ih (fun x hx => h x (by simp [hx]))]
      rw [show (g :: g' :: G').flatten = g ++ (g' :: G').flatten from rfl]
      rw [joinWords_append g _ hg hrest]

/-- If every candidate line extending `current` is over-wide, `current`
survives as a group of its own. -/
theorem groupsLoop_self_mem (width : String → Nat) (maxW : Nat) :
    ∀ (ws current : List String), current ≠ [] →
      (∀ u : String, maxW < width (joinWords (current ++ [u]))) →
      current ∈ groupsLoop width maxW ws current := by
  intro ws
  induction ws with
  | nil =>
    intro current hc _
    simp [groupsLoop, hc]
  | cons w ws ih =>
    intro current hc hbig
    simp only [groupsLoop]
    rw [if_neg (Nat.not_le.mpr (hbig w))]
    apply List.mem_append_left
    simp [hc]

/-- A word wider than the limit always ends up in a singleton group,
assuming the width measure dominates each member of a joined line. -/
theorem groupsLoop_singleton_mem (width : String → Nat) (maxW : Nat)
    (hmono : ∀ (l : List String) (w : String), w ∈ l → width w ≤ width (joinWords l)) :
    ∀ (ws current : List String) (w : String), w ∈ ws → maxW < width w →
      [w] ∈ groupsLoop width maxW ws current := by
  intro ws
  induction ws with
  | nil =>
    intro current w hw
    simp at hw
  | cons u ws ih =>
    intro current w hw hwide
    simp only [groupsLoop]
    rcases List.mem_cons.mp hw with rfl | hmem
    · have hbig : maxW < width (joinWords (current ++ [w])) :=
        lt_of_lt_of_le hwide (hmono (current ++ [w]) w (by simp))
      rw [if_neg (Nat.not_le.mpr hbig)]
      apply List.mem_append_right
      apply groupsLoop_self_mem
      · simp
      · intro u'
        exact lt_of_lt_of_le hwide (hmono ([w] ++ [u']) w (by simp))
    · by_cases hfit : width (joinWords (current ++ [u])) ≤ maxW
      · rw [if_pos hfit]
        exact ih _ w hmem hwide
      · rw [if_neg hfit]
        exact List.mem_append_right _ (ih _ w hmem hwide)

/-- The length measure dominates each member of a joined line (the
monotonicity any real font metric satisfies). -/
theorem length_le_joinWords :
    ∀ (l : List String) (w : String), w ∈ l → w.length ≤ (joinWords l).length := by
  intro l
  induction l with
  | nil =>
    intro w hw
    simp at hw
  | cons x l ih =>
    intro w hw
    cases l with
    | nil =>
      simp at hw
      subst hw
      exact le_refl _
    | cons y l' =>
      rcases List.mem_cons.mp hw with rfl | hmem
      · simp only [joinWords, String.length_append]
        omega
      · have := ih w hmem
        simp only [joinWords, String.length_append]
        omega

/-- C10 counterexample: the claim quantifies over every text string, but
for the whitespace-only text `" "` the wrapper returns the raw text as a
single line, whose space-join `" "` differs from the (empty) join of the
input's words. -/
theorem c10_whitespace_counterexample :
    wrap_text String.length " " 100 = [" "] ∧
    joinWords (wrap_text String.length " " 100) ≠ joinWords (splitWords " ") := by
  exact ⟨rfl, by decide⟩

/-- C10 amended: for every width measure, limit, and text containing at
least one non-whitespace character, the wrap returns a non-empty list of
lines whose single-space join equals the input's words joined by single
spaces — no word is dropped, duplicated, reordered or split — and, when
the width measure dominates the members of a joined line (true of font
metrics), a word wider than the limit occupies a line of its own.
(Whitespace-only text instead returns the raw text as the single line.) -/
theorem c10_wrap_preserves_words :
    ∀ (width : String → Nat) (maxW : Nat) (text : String),
      splitWords text ≠ [] →
      (∀ (l : List String) (w : String), w ∈ l → width w ≤ width (joinWords l)) →
      wrap_text width text maxW ≠ [] ∧
      joinWords (wrap_text width text maxW) = joinWords (splitWords text) ∧
      (∀ w ∈ splitWords text, maxW < width w → w ∈ wrap_text width text maxW) := by
  intro width maxW text hw hmono
  have hflat : (groupsLoop width maxW (splitWords text) []).flatten = splitWords text := by
    simpa using groupsLoop_flatten width maxW (splitWords text) []
  have hne : ∀ g ∈ groupsLoop width maxW (splitWords text) [], g ≠ [] :=
    fun g hg => groupsLoop_ne_nil width maxW (splitWords text) [] g hg
  have hGne : groupsLoop width maxW (splitWords text) [] ≠ [] := by
    intro h
    rw [h] at hflat
    exact hw hflat.symm
  have hlines : wrapLoop width maxW (splitWords text) [] []
      = (groupsLoop width maxW (splitWords text) []).map joinWords := by
    simpa using wrapLoop_eq_groups width maxW (splitWords text) [] []
  have hmapne : (groupsLoop width maxW (splitWords text) []).map joinWords ≠ [] := by
    simpa using hGne
  have hwrap : wrap_text width text maxW
      = (groupsLoop width maxW (splitWords text) []).map joinWords := by
    simp [wrap_text, hlines, hmapne]
  refine ⟨by rw [hwrap]; exact hmapne, ?_, ?_⟩
  · rw [hwrap, joinWords_flatten _ hne, hflat]
  · intro w hwmem hwide
    have hmem : [w] ∈ groupsLoop width maxW (splitWords text) [] :=
      groupsLoop_singleton_mem width maxW hmono (splitWords text) [] w hwmem hwide
    rw [hwrap]
    exact List.mem_map.mpr ⟨[w], hmem, rfl⟩

/-- Witness for C10 at text "hello world" with the length measure and
limit 5: "hello" and "world" are both over-wide and land on their own
lines. -/
theorem c10_wrap_preserves_words_witness :
    wrap_text String.length "hello world" 5 ≠ [] ∧
    joinWords (wrap_text String.length "hello world" 5)
        = joinWords (splitWords "hello world") ∧
    (∀ w ∈ splitWords "hello world", 5 < String.length w →
      w ∈ wrap_text String.length "hello world" 5) :=
  c10_wrap_preserves_words String.length 5 "hello world" (by decide)
    (fun l w hw => length_le_joinWords l w hw)
